import Mathlib

/-!
# NanoCore: verification of the ISA table, execution engine and assembler

Shallow embedding of the NanoCore 8-bit CPU emulator and its two-pass
assembler.  Machine bytes (`u8` in the source) are modelled as `Nat`
values, with `% 256` applied exactly where the source performs wrapping
arithmetic.  Fallible operations are modelled with `Except`, mirroring
the `EmulatorResult` / `AssemblerResult` types of `src/error.rs`.

Sources embedded:
* `src/lib.rs` — the `Op` enumeration, `instruction_len`, the
  `From<u8> for Op`, `From<Op> for u8`, `From<Op> for &str` and
  `From<&str> for Op` conversion tables.
* `src/cpu.rs` — the `CPU` state, flag constants and `update_zn_flags`.
* `src/nanocore.rs` — `fetch_decode`, `execute`, `cycle`, `load_program`.
* `src/assembler.rs` — the three assembler passes.
-/

set_option maxRecDepth 4096

namespace NanoCoreModel

/-- The operation enumeration from `src/lib.rs` (`pub enum Op`), with the
same 34 variants in the same order. -/
inductive Op where
  | HLT
  | NOP
  | LDI
  | LDA
  | LDR
  | MOV
  | STORE
  | PUSH
  | POP
  | ADD
  | ADDI
  | SUB
  | SUBI
  | INC
  | DEC
  | AND
  | OR
  | XOR
  | NOT
  | CMP
  | JMP
  | JZ
  | JNZ
  | SHL
  | SHR
  | PRINT
  | MUL
  | MULI
  | DIV
  | DIVI
  | MOD
  | MODI
  | CALL
  | RET
deriving DecidableEq

/-- `Op::instruction_len` from `src/lib.rs`: three length classes. -/
def Op.instruction_len : Op → Nat
  | .LDI | .LDA | .STORE | .ADDI | .SUBI | .MULI | .DIVI | .MODI => 3
  | .LDR | .MOV | .PUSH | .POP | .ADD | .SUB | .INC | .DEC => 2
  | .AND | .OR | .XOR | .NOT | .CMP | .SHL | .SHR => 2
  | .JMP | .JZ | .JNZ | .PRINT => 2
  | .MUL | .DIV | .MOD | .CALL => 2
  | _ => 1

/-- `impl From<u8> for Op` from `src/lib.rs`: total decode of an opcode
byte, every unassigned byte falling through to `NOP`. -/
def Op.fromByte (value : Nat) : Op :=
  if value = 0x00 then .HLT
  else if value = 0x01 then .NOP
  else if value = 0x02 then .LDI
  else if value = 0x03 then .LDA
  else if value = 0x04 then .LDR
  else if value = 0x05 then .MOV
  else if value = 0x06 then .STORE
  else if value = 0x07 then .PUSH
  else if value = 0x08 then .POP
  else if value = 0x09 then .ADD
  else if value = 0x0A then .ADDI
  else if value = 0x0B then .SUB
  else if value = 0x0C then .SUBI
  else if value = 0x0D then .INC
  else if value = 0x0E then .DEC
  else if value = 0x0F then .AND
  else if value = 0x10 then .OR
  else if value = 0x11 then .XOR
  else if value = 0x12 then .NOT
  else if value = 0x13 then .CMP
  else if value = 0x14 then .SHL
  else if value = 0x15 then .SHR
  else if value = 0x16 then .JMP
  else if value = 0x17 then .JZ
  else if value = 0x18 then .JNZ
  else if value = 0x19 then .PRINT
  else if value = 0x1A then .MUL
  else if value = 0x1B then .MULI
  else if value = 0x1C then .DIV
  else if value = 0x1D then .DIVI
  else if value = 0x1E then .MOD
  else if value = 0x1F then .MODI
  else if value = 0x20 then .CALL
  else if value = 0x21 then .RET
  else .NOP

/-- `impl From<Op> for u8` from `src/lib.rs`: the canonical opcode byte. -/
def Op.toByte : Op → Nat
  | .HLT => 0x00
  | .NOP => 0x01
  | .LDI => 0x02
  | .LDA => 0x03
  | .LDR => 0x04
  | .MOV => 0x05
  | .STORE => 0x06
  | .PUSH => 0x07
  | .POP => 0x08
  | .ADD => 0x09
  | .ADDI => 0x0A
  | .SUB => 0x0B
  | .SUBI => 0x0C
  | .INC => 0x0D
  | .DEC => 0x0E
  | .AND => 0x0F
  | .OR => 0x10
  | .XOR => 0x11
  | .NOT => 0x12
  | .CMP => 0x13
  | .SHL => 0x14
  | .SHR => 0x15
  | .JMP => 0x16
  | .JZ => 0x17
  | .JNZ => 0x18
  | .PRINT => 0x19
  | .MUL => 0x1A
  | .MULI => 0x1B
  | .DIV => 0x1C
  | .DIVI => 0x1D
  | .MOD => 0x1E
  | .MODI => 0x1F
  | .CALL => 0x20
  | .RET => 0x21

/-- `impl From<Op> for &str` from `src/lib.rs`: the canonical mnemonic. -/
def Op.toStr : Op → String
  | .HLT => "HLT"
  | .NOP => "NOP"
  | .LDI => "LDI"
  | .LDA => "LDA"
  | .LDR => "LDR"
  | .MOV => "MOV"
  | .STORE => "STORE"
  | .PUSH => "PUSH"
  | .POP => "POP"
  | .ADD => "ADD"
  | .ADDI => "ADDI"
  | .SUB => "SUB"
  | .SUBI => "SUBI"
  | .INC => "INC"
  | .DEC => "DEC"
  | .AND => "AND"
  | .OR => "OR"
  | .XOR => "XOR"
  | .NOT => "NOT"
  | .CMP => "CMP"
  | .JMP => "JMP"
  | .JZ => "JZ"
  | .JNZ => "JNZ"
  | .SHL => "SHL"
  | .SHR => "SHR"
  | .PRINT => "PRINT"
  | .MUL => "MUL"
  | .MULI => "MULI"
  | .DIV => "DIV"
  | .DIVI => "DIVI"
  | .MOD => "MOD"
  | .MODI => "MODI"
  | .CALL => "CALL"
  | .RET => "RET"

/-- `impl From<&str> for Op` from `src/lib.rs`.  The source panics on an
unrecognized mnemonic; the panic is modelled as `none`. -/
def Op.fromStr (value : String) : Option Op :=
  if value = "HLT" then some .HLT
  else if value = "NOP" then some .NOP
  else if value = "LDI" then some .LDI
  else if value = "LDA" then some .LDA
  else if value = "LDR" then some .LDR
  else if value = "MOV" then some .MOV
  else if value = "STORE" then some .STORE
  else if value = "PUSH" then some .PUSH
  else if value = "POP" then some .POP
  else if value = "ADD" then some .ADD
  else if value = "ADDI" then some .ADDI
  else if value = "SUB" then some .SUB
  else if value = "SUBI" then some .SUBI
  else if value = "INC" then some .INC
  else if value = "DEC" then some .DEC
  else if value = "AND" then some .AND
  else if value = "OR" then some .OR
  else if value = "XOR" then some .XOR
  else if value = "NOT" then some .NOT
  else if value = "CMP" then some .CMP
  else if value = "JMP" then some .JMP
  else if value = "JZ" then some .JZ
  else if value = "JNZ" then some .JNZ
  else if value = "SHL" then some .SHL
  else if value = "SHR" then some .SHR
  else if value = "PRINT" then some .PRINT
  else if value = "MUL" then some .MUL
  else if value = "MULI" then some .MULI
  else if value = "DIV" then some .DIV
  else if value = "DIVI" then some .DIVI
  else if value = "MOD" then some .MOD
  else if value = "MODI" then some .MODI
  else if value = "CALL" then some .CALL
  else if value = "RET" then some .RET
  else none

/-- The emulator runtime error taxonomy from `src/error.rs`
(`pub enum EmulatorError`). -/
inductive EmulatorError where
  | InvalidOperand (op expected got : String)
  | StackOverflow (sp : Nat)
  | StackUnderflow (sp : Nat)
  | ProgramTooLarge (size : Nat) (start : Nat) (max : Nat)
  | DivisionByZero (op : String)
  | IoError (msg : String)
deriving DecidableEq

/-- The assembler error taxonomy from `src/error.rs`
(`pub enum AssemblerError`). -/
inductive AssemblerError where
  | SyntaxError (line : Nat) (message : String)
  | InvalidRegister (name : String) (line : Nat)
  | InvalidValue (value : String) (line : Nat)
  | InvalidHexAddress (value : String) (line : Nat)
  | UndefinedLabel (label : String) (line : Nat)
deriving DecidableEq

/-- The 1-based source line carried by every assembler error
(each `AssemblerError` variant of `src/error.rs` has a `line` field). -/
def AssemblerError.lineOf : AssemblerError → Nat
  | .SyntaxError n _ => n
  | .InvalidRegister _ n => n
  | .InvalidValue _ n => n
  | .InvalidHexAddress _ n => n
  | .UndefinedLabel _ n => n

/-- The machine state from `src/cpu.rs` (`pub struct CPU`).  `registers`
is the 16-entry byte array, `memory` the 256-entry byte array; both are
modelled as `List Nat` whose entries stay below 256 in every reachable
state. -/
structure CPU where
  registers : List Nat
  pc : Nat
  sp : Nat
  memory : List Nat
  flags : Nat
  is_halted : Bool
deriving DecidableEq

/-- `CPU::new` from `src/cpu.rs`. -/
def CPU.new : CPU :=
  { registers := List.replicate 16 0
    pc := 0
    sp := 0xFF
    memory := List.replicate 256 0
    flags := 0
    is_halted := false }

def CPU.FLAG_Z : Nat := 0b0001
def CPU.FLAG_C : Nat := 0b0010
def CPU.FLAG_N : Nat := 0b0100
def CPU.FLAG_Y : Nat := 0b1000

def CPU.STACK_MAX : Nat := 0xFF
def CPU.STACK_MIN : Nat := 0xEA

/-- `CPU::set_flag`: `self.flags |= bit`. -/
def setFlag (flags bit : Nat) : Nat := flags ||| bit

/-- `CPU::clear_flag`: `self.flags &= !bit`; the `u8` complement `!bit`
is `255 ^^^ bit`. -/
def clearFlag (flags bit : Nat) : Nat := flags &&& (255 ^^^ bit)

/-- `CPU::get_flag`: `(self.flags & bit) != 0`. -/
def getFlag (flags bit : Nat) : Bool := flags &&& bit != 0

/-- `CPU::update_zn_flags` from `src/cpu.rs`: Z set iff the result is 0,
N set iff bit 7 of the result is set; C and Y are untouched. -/
def updateZnFlags (flags result : Nat) : Nat :=
  let f := if result = 0 then setFlag flags CPU.FLAG_Z else clearFlag flags CPU.FLAG_Z
  if result &&& 0x80 = 0 then clearFlag f CPU.FLAG_N else setFlag f CPU.FLAG_N

/-- The decoded operand shapes from `src/nanocore.rs` (`pub enum Operands`). -/
inductive Operands where
  | none
  | reg (r : Nat)
  | regImm (r v : Nat)
  | regReg (rd rs : Nat)
  | regAddr (r a : Nat)
  | addr (a : Nat)
deriving DecidableEq

/-- Register read `self.cpu.registers[r]`.  The source indexes the
16-entry array directly (panicking out of range); theorems only apply
it with `r < 16`. -/
def regGet (cpu : CPU) (r : Nat) : Nat := cpu.registers.getD r 0

/-- Memory read `self.cpu.memory[a]` (addresses are `u8`, always in
range in the source). -/
def memGet (cpu : CPU) (a : Nat) : Nat := cpu.memory.getD a 0

/-- The result of one `execute` call: the updated machine state plus the
`pc_override` flag returned by `NanoCore::execute`. -/
structure ExecResult where
  cpu : CPU
  pc_override : Bool
deriving DecidableEq

/-- The `Op::ADD | Op::SUB | Op::MUL | Op::DIV | Op::MOD` arm of
`NanoCore::execute` (register-register arithmetic).

`overflowing_add`/`overflowing_sub`/`overflowing_mul` wrap modulo 256
with the carry flag reporting overflow; `overflowing_div` and
`overflowing_rem` never report overflow for unsigned operands.

Modelled from the spec: the snapshot of `src/nanocore.rs` under `src/`
divides unconditionally (the Result-returning engine that the tests in
`tests/` and the `EmulatorError` type of `src/error.rs` rely on is not in
the listing); per the spec, a zero divisor fails with `DivisionByZero`
naming the mnemonic, before any state change. -/
def execArithRR (cpu : CPU) (op : Op) (rd rs : Nat) : Except EmulatorError ExecResult :=
  let v1 := regGet cpu rd
  let v2 := regGet cpu rs
  if (op = Op.DIV ∨ op = Op.MOD) ∧ v2 = 0 then
    .error (.DivisionByZero (Op.toStr op))
  else
    let rc : Nat × Bool :=
      match op with
      | .ADD => ((v1 + v2) % 256, decide (256 ≤ v1 + v2))
      | .SUB => ((v1 + 256 - v2) % 256, decide (v1 < v2))
      | .MUL => ((v1 * v2) % 256, decide (256 ≤ v1 * v2))
      | .DIV => (v1 / v2, false)
      | _ => (v1 % v2, false)
    let flags := updateZnFlags cpu.flags rc.1
    let flags := if rc.2 then setFlag flags CPU.FLAG_C else clearFlag flags CPU.FLAG_C
    .ok ⟨{ cpu with registers := cpu.registers.set rd rc.1, flags := flags }, false⟩

/-- The `Op::ADDI | Op::SUBI | Op::MULI | Op::DIVI | Op::MODI` arm of
`NanoCore::execute` (register-immediate arithmetic).  Same structure as
`execArithRR`; the zero-divisor check is likewise modelled from the
spec. -/
def execArithRI (cpu : CPU) (op : Op) (reg v2 : Nat) : Except EmulatorError ExecResult :=
  let v1 := regGet cpu reg
  if (op = Op.DIVI ∨ op = Op.MODI) ∧ v2 = 0 then
    .error (.DivisionByZero (Op.toStr op))
  else
    let rc : Nat × Bool :=
      match op with
      | .ADDI => ((v1 + v2) % 256, decide (256 ≤ v1 + v2))
      | .SUBI => ((v1 + 256 - v2) % 256, decide (v1 < v2))
      | .MULI => ((v1 * v2) % 256, decide (256 ≤ v1 * v2))
      | .DIVI => (v1 / v2, false)
      | _ => (v1 % v2, false)
    let flags := updateZnFlags cpu.flags rc.1
    let flags := if rc.2 then setFlag flags CPU.FLAG_C else clearFlag flags CPU.FLAG_C
    .ok ⟨{ cpu with registers := cpu.registers.set reg rc.1, flags := flags }, false⟩

/-- The `Op::AND | Op::OR | Op::XOR | Op::CMP` arm of
`NanoCore::execute`.  Note the source reads `v1` from the SOURCE
register `rs` and `v2` from the DESTINATION register `rd`, and for CMP
stores 0 when `v1 == v2`, 1 when `v1 > v2`, 2 otherwise. -/
def execLogicRR (cpu : CPU) (op : Op) (rd rs : Nat) : ExecResult :=
  let v1 := regGet cpu rs
  let v2 := regGet cpu rd
  let result :=
    match op with
    | .AND => v1 &&& v2
    | .OR => v1 ||| v2
    | .XOR => v1 ^^^ v2
    | _ => if v1 = v2 then 0 else if v1 > v2 then 1 else 2
  ⟨{ cpu with registers := cpu.registers.set rd result,
              flags := updateZnFlags cpu.flags result }, false⟩

/-- The `Op::SHL | Op::SHR` arm of `NanoCore::execute`.  Rust
`overflowing_shl(1)`/`overflowing_shr(1)` report overflow only for shift
amounts of at least the bit width, so the carry is always false here.
(The source also lists `Op::ROL | Op::ROR` in this arm; those variants do
not exist in the `Op` enumeration of `src/lib.rs` and are omitted.) -/
def execShift (cpu : CPU) (op : Op) (reg : Nat) : ExecResult :=
  let value := regGet cpu reg
  let result := if op = Op.SHL then (value <<< 1) % 256 else value >>> 1
  let flags := updateZnFlags cpu.flags result
  let flags := clearFlag flags CPU.FLAG_C
  ⟨{ cpu with registers := cpu.registers.set reg result, flags := flags }, false⟩

/-- `NanoCore::execute` from `src/nanocore.rs`, state effects only (the
instruction-trace strings and console printing are UI side channels and
are omitted; `PRINT`'s append to the output accumulator is likewise an
omitted side channel that touches no machine state).

Fallible paths are returned as `EmulatorError` values after
`src/error.rs`, as the tests in `tests/` require; the snapshot of
`src/nanocore.rs` in the listing panics at exactly the same points (stack
bounds) or divides unconditionally (`DivisionByZero`, modelled from the
spec).  Operand-shape mismatches (`panic!("Invalid!")` in the snapshot)
are modelled from the spec as `InvalidOperand`; `fetch_decode` never
produces them. -/
def execute (cpu : CPU) (op : Op) (operands : Operands) : Except EmulatorError ExecResult :=
  match op, operands with
  | .HLT, _ => .ok ⟨{ cpu with is_halted := true }, false⟩
  | .NOP, _ => .ok ⟨cpu, false⟩
  | .LDI, .regImm reg value =>
      .ok ⟨{ cpu with registers := cpu.registers.set reg value,
                      flags := updateZnFlags cpu.flags value }, false⟩
  | .LDA, .regAddr reg addr =>
      let value := memGet cpu addr
      .ok ⟨{ cpu with registers := cpu.registers.set reg value,
                      flags := updateZnFlags cpu.flags value }, false⟩
  | .STORE, .regAddr reg addr =>
      let value := regGet cpu reg
      .ok ⟨{ cpu with memory := cpu.memory.set addr value,
                      flags := updateZnFlags cpu.flags value }, false⟩
  | .LDR, .regReg rd rs =>
      let addr := regGet cpu rs
      let value := memGet cpu addr
      .ok ⟨{ cpu with registers := cpu.registers.set rd value,
                      flags := updateZnFlags cpu.flags value }, false⟩
  | .MOV, .regReg rd rs =>
      let value := regGet cpu rs
      .ok ⟨{ cpu with registers := cpu.registers.set rd value,
                      flags := updateZnFlags cpu.flags value }, false⟩
  | .PUSH, .reg reg =>
      if cpu.sp = CPU.STACK_MIN then
        .error (.StackOverflow cpu.sp)
      else
        let value := regGet cpu reg
        .ok ⟨{ cpu with memory := cpu.memory.set cpu.sp value,
                        sp := (cpu.sp + 255) % 256,
                        flags := updateZnFlags cpu.flags value }, false⟩
  | .POP, .reg reg =>
      if cpu.sp = CPU.STACK_MAX then
        .error (.StackUnderflow cpu.sp)
      else
        let sp := (cpu.sp + 1) % 256
        let value := cpu.memory.getD sp 0
        .ok ⟨{ cpu with registers := cpu.registers.set reg value,
                        sp := sp,
                        flags := updateZnFlags cpu.flags value }, false⟩
  | .INC, .reg reg =>
      let value := (regGet cpu reg + 1) % 256
      .ok ⟨{ cpu with registers := cpu.registers.set reg value,
                      flags := updateZnFlags cpu.flags value }, false⟩
  | .DEC, .reg reg =>
      let value := (regGet cpu reg + 255) % 256
      .ok ⟨{ cpu with registers := cpu.registers.set reg value,
                      flags := updateZnFlags cpu.flags value }, false⟩
  | .ADD, .regReg rd rs => execArithRR cpu .ADD rd rs
  | .SUB, .regReg rd rs => execArithRR cpu .SUB rd rs
  | .MUL, .regReg rd rs => execArithRR cpu .MUL rd rs
  | .DIV, .regReg rd rs => execArithRR cpu .DIV rd rs
  | .MOD, .regReg rd rs => execArithRR cpu .MOD rd rs
  | .ADDI, .regImm reg v => execArithRI cpu .ADDI reg v
  | .SUBI, .regImm reg v => execArithRI cpu .SUBI reg v
  | .MULI, .regImm reg v => execArithRI cpu .MULI reg v
  | .DIVI, .regImm reg v => execArithRI cpu .DIVI reg v
  | .MODI, .regImm reg v => execArithRI cpu .MODI reg v
  | .AND, .regReg rd rs => .ok (execLogicRR cpu .AND rd rs)
  | .OR, .regReg rd rs => .ok (execLogicRR cpu .OR rd rs)
  | .XOR, .regReg rd rs => .ok (execLogicRR cpu .XOR rd rs)
  | .CMP, .regReg rd rs => .ok (execLogicRR cpu .CMP rd rs)
  | .NOT, .reg reg =>
      let value := regGet cpu reg
      let result := 255 ^^^ value
      .ok ⟨{ cpu with registers := cpu.registers.set reg result,
                      flags := updateZnFlags cpu.flags result }, false⟩
  | .JMP, .addr a => .ok ⟨{ cpu with pc := a }, true⟩
  | .JZ, .addr a =>
      if getFlag cpu.flags CPU.FLAG_Z = true then .ok ⟨{ cpu with pc := a }, true⟩
      else .ok ⟨cpu, false⟩
  | .JNZ, .addr a =>
      if getFlag cpu.flags CPU.FLAG_Z = false then .ok ⟨{ cpu with pc := a }, true⟩
      else .ok ⟨cpu, false⟩
  | .PRINT, .reg _ => .ok ⟨cpu, false⟩
  | .SHL, .reg reg => .ok (execShift cpu .SHL reg)
  | .SHR, .reg reg => .ok (execShift cpu .SHR reg)
  | .CALL, .addr a =>
      if cpu.sp = CPU.STACK_MIN then
        .error (.StackOverflow cpu.sp)
      else
        .ok ⟨{ cpu with memory := cpu.memory.set cpu.sp ((cpu.pc + 2) % 256),
                        sp := (cpu.sp + 255) % 256,
                        pc := a }, true⟩
  | .RET, _ =>
      if cpu.sp = CPU.STACK_MAX then
        .error (.StackUnderflow cpu.sp)
      else
        let sp := (cpu.sp + 1) % 256
        .ok ⟨{ cpu with sp := sp, pc := cpu.memory.getD sp 0 }, true⟩
  | _, _ => .error (.InvalidOperand (Op.toStr op) "" "")

/-- `NanoCore::fetch_decode` from `src/nanocore.rs`: read the opcode byte
at `pc` and the two following bytes (wrapping), decode via the ISA table,
and shape the operands.  (`Op::ROL | Op::ROR` in the single-register
shape line do not exist in the `Op` enumeration of `src/lib.rs` and are
omitted.) -/
def fetchDecode (cpu : CPU) : Op × Operands :=
  let opcode := memGet cpu cpu.pc
  let byte2 := memGet cpu ((cpu.pc + 1) % 256)
  let byte3 := memGet cpu ((cpu.pc + 2) % 256)
  let op := Op.fromByte opcode
  let operands :=
    match op with
    | .HLT | .NOP | .RET => Operands.none
    | .LDI | .ADDI | .SUBI | .MULI | .DIVI | .MODI => Operands.regImm byte2 byte3
    | .LDA | .STORE => Operands.regAddr byte2 byte3
    | .PUSH | .POP | .INC | .DEC | .NOT | .SHL | .SHR | .PRINT => Operands.reg byte2
    | .LDR | .MOV | .ADD | .SUB | .AND | .OR | .XOR | .CMP | .MUL | .DIV | .MOD =>
        Operands.regReg ((byte2 >>> 4) &&& 0x0F) (byte2 &&& 0x0F)
    | .JMP | .JZ | .JNZ | .CALL => Operands.addr byte2
  (op, operands)

/-- `NanoCore::cycle` from `src/nanocore.rs`: fetch, decode, execute,
then advance `pc` by the instruction length (wrapping) unless the
operation overrode `pc` or halted the machine.  Errors from `execute`
propagate to the caller, leaving the caller's state untouched (the
`Except` embedding of the fallible `cycle`). -/
def cycle (cpu : CPU) : Except EmulatorError CPU :=
  let fd := fetchDecode cpu
  match execute cpu fd.1 fd.2 with
  | .error e => .error e
  | .ok res =>
      if res.cpu.is_halted then .ok res.cpu
      else if res.pc_override then .ok res.cpu
      else .ok { res.cpu with pc := (res.cpu.pc + Op.instruction_len fd.1) % 256 }

/-- The write loop of `NanoCore::load_program`:
`memory[start.wrapping_add(i)] = program[i]` for each byte in order. -/
def loadBytes : List Nat → Nat → List Nat → List Nat
  | mem, _, [] => mem
  | mem, a, b :: rest => loadBytes (mem.set (a % 256) b) (a + 1) rest

/-- `NanoCore::load_program`, with the size-check failure returned as
`ProgramTooLarge` after `src/error.rs` (the snapshot in the listing
panics with the same size/start/limit data; the structured error is the
form the tests in `tests/` and the spec require).  The check precedes
every write, so a failing load modifies nothing. -/
def load_program (cpu : CPU) (program : List Nat) (start : Nat) :
    Except EmulatorError CPU :=
  if 256 < start + program.length then
    .error (.ProgramTooLarge program.length start 256)
  else
    .ok { cpu with memory := loadBytes cpu.memory start program, pc := start }

/-! ## Assembler (`src/assembler.rs`) -/

/-- String helpers implemented by structural recursion over the
character list, so that every assembler run reduces inside the kernel
(the corresponding `String` library functions use well-founded
recursion).  `strStartsWith`/`strEndsWith`/`strDrop`/`strTrim` model
Rust `str::starts_with`, `ends_with`, the slicing used with them, and
`str::trim`. -/
def strStartsWith (s p : String) : Bool := p.toList.isPrefixOf s.toList

def strEndsWith (s p : String) : Bool :=
  p.toList.reverse.isPrefixOf s.toList.reverse

def strDrop (s : String) (n : Nat) : String := String.mk (s.toList.drop n)

def trimChars (cs : List Char) : List Char :=
  ((cs.dropWhile Char.isWhitespace).reverse.dropWhile Char.isWhitespace).reverse

def strTrim (s : String) : String := String.mk (trimChars s.toList)

/-- Rust `str::lines` (sources here use plain newline separators). -/
def strLines (asm : String) : List String :=
  (asm.toList.splitOn (Char.ofNat 10)).map String.mk

/-- Rust `str::split_whitespace`: split on whitespace, dropping empty
pieces. -/
def splitWhitespace (s : String) : List String :=
  ((s.toList.splitOnP Char.isWhitespace).filter (fun t => ¬ t.isEmpty)).map
    String.mk

/-- The shared line preprocessing of all three passes: `line.trim()`,
then strip everything from the first `;` (`line.find(';')` and the
slice before it), then trim again. -/
def stripComment (l : String) : String :=
  strTrim (String.mk ((strTrim l).toList.takeWhile (fun c => ¬ c = ';')))

/-- `Assembler::is_label`: the line ends with a colon. -/
def isLabelLine (l : String) : Bool := strEndsWith l ":"

/-- `Assembler::is_constant`: the line starts with `.CONST`. -/
def isConstantLine (l : String) : Bool := strStartsWith l ".CONST"

/-- `line.trim_end_matches(':')`: drop every trailing colon. -/
def trimEndColons (l : String) : String :=
  String.mk ((l.toList.reverse.dropWhile (fun c => c = ':')).reverse)

/-- Rust `str::parse::<u8>`: an optional leading `+` sign, then one or
more ASCII digits, and the value must fit in a byte. -/
def parseU8 (v : String) : Option Nat :=
  let s := if strStartsWith v "+" then strDrop v 1 else v
  let cs := s.toList
  if cs ≠ [] ∧ cs.all Char.isDigit then
    let n := cs.foldl (fun acc c => acc * 10 + (c.toNat - 48)) 0
    if n ≤ 255 then some n else none
  else none

/-- `Assembler::from_value_str`. -/
def from_value_str (v : String) (line : Nat) : Except AssemblerError Nat :=
  match parseU8 v with
  | some n => .ok n
  | none => .error (.InvalidValue v line)

/-- The value of one hexadecimal digit, either case (as accepted by the
`hex` crate used in `Assembler::from_hex_str`). -/
def hexVal (c : Char) : Option Nat :=
  if c.isDigit then some (c.toNat - 48)
  else if 97 ≤ c.toNat ∧ c.toNat ≤ 102 then some (c.toNat - 87)
  else if 65 ≤ c.toNat ∧ c.toNat ≤ 70 then some (c.toNat - 55)
  else none

/-- `Assembler::from_hex_str`: strip an optional `0x`, `hex::decode` the
rest (which requires an even number of hex digits, failing with
`InvalidHexAddress`), reject an empty result with `InvalidValue`, and
return the first decoded byte. -/
def from_hex_str (v : String) (line : Nat) : Except AssemblerError Nat :=
  let s := (if strStartsWith v "0x" then strDrop v 2 else v).toList
  if s.length % 2 = 0 ∧ s.all (fun c => (hexVal c).isSome) then
    match s with
    | c1 :: c2 :: _ => .ok (16 * (hexVal c1).getD 0 + (hexVal c2).getD 0)
    | _ => .error (.InvalidValue v line)
  else .error (.InvalidHexAddress v line)

/-- `Assembler::register`: strip the `R`, parse the rest as a `u8`,
reject values above 15. -/
def register (r : String) (line : Nat) : Except AssemblerError Nat :=
  if strStartsWith r "R" then
    match parseU8 (strDrop r 1) with
    | some reg => if 15 < reg then .error (.InvalidRegister r line) else .ok reg
    | none => .error (.InvalidRegister r line)
  else .error (.InvalidRegister r line)

/-- The constant/label tables (`HashMap<String, u8>`), as lookup
functions; `insert` overwrites. -/
def emptyMap : String → Option Nat := fun _ => none

def mapInsert (m : String → Option Nat) (k : String) (v : Nat) :
    String → Option Nat :=
  fun s => if s = k then some v else m s

/-- `Assembler::resolve_number`: the constant table takes precedence,
then `0x`-hex, then decimal. -/
def resolve_number (constants : String → Option Nat) (v : String) (line : Nat) :
    Except AssemblerError Nat :=
  match constants v with
  | some value => .ok value
  | none =>
      if strStartsWith v "0x" then from_hex_str v line else from_value_str v line

/-- Modelled from the spec: `src/assembler.rs` parses mnemonics with
`Op::try_from(&str)`, whose implementation is not in the listing (the
`From<&str>` impl of `src/lib.rs` panics instead of failing); per the
spec, an unrecognized mnemonic fails with a syntax error.  The assembler
rebinds the error to the current source line, so the line recorded here
is a placeholder. -/
def Op.try_from (value : String) : Except AssemblerError Op :=
  match Op.fromStr value with
  | some op => .ok op
  | none => .error (.SyntaxError 0 ("Invalid operation: " ++ value))

/-- The double-quote character scanned for by the `.STRING` directive. -/
def quoteChar : Char := Char.ofNat 34

/-- Rust `line.find('"')`, as a character index. -/
def findQuote (l : String) : Option Nat :=
  l.toList.findIdx? (fun c => c = quoteChar)

/-- Rust `line.rfind('"')`, as a character index. -/
def rfindQuote (l : String) : Option Nat :=
  match l.toList.reverse.findIdx? (fun c => c = quoteChar) with
  | some i => some (l.toList.length - 1 - i)
  | none => none

/-- One line of `Assembler::map_constants`: a `.CONST NAME VALUE` line
(after comment stripping) must have three tokens and a parsable byte
value; other lines are skipped. -/
def mapConstantsLine (n : Nat) (raw : String) (constants : String → Option Nat) :
    Except AssemblerError (String → Option Nat) :=
  let line := stripComment raw
  if ¬ isConstantLine line then .ok constants
  else
    let parts := splitWhitespace line
    if parts.length < 3 then .error (.SyntaxError n "Invalid constant definition")
    else
      let name := parts.getD 1 ""
      let vstr := parts.getD 2 ""
      Except.map (fun value => mapInsert constants name value)
        (if strStartsWith vstr "0x" then from_hex_str vstr n
         else from_value_str vstr n)

/-- The loop of `Assembler::map_constants` over enumerated lines
(`line_num` is 1-based), aborting at the first error. -/
def mapConstantsGo :
    List String → Nat → (String → Option Nat) →
      Except AssemblerError (String → Option Nat)
  | [], _, constants => .ok constants
  | l :: rest, n, constants =>
      match mapConstantsLine n l constants with
      | .ok c => mapConstantsGo rest (n + 1) c
      | .error e => .error e

/-- `Assembler::map_constants`. -/
def map_constants (lines : List String) :
    Except AssemblerError (String → Option Nat) :=
  mapConstantsGo lines 1 emptyMap

/-- One line of `Assembler::map_labels`, transforming the running
address counter and label table.  Blank and `.CONST` lines are skipped;
`.DB` advances the counter by the number of listed values; `.STRING` by
the quoted length (a quoteless `.STRING` fails); a label line records
the current address without advancing; an instruction line advances by
the operation's length, a bad mnemonic failing with the current line
number.  All counter arithmetic wraps modulo 256 (`u8`). -/
def mapLabelsLine (n : Nat) (raw : String) :
    Nat × (String → Option Nat) →
      Except AssemblerError (Nat × (String → Option Nat))
  | (addr, labels) =>
    let line := stripComment raw
    if line.toList.isEmpty ∨ isConstantLine line then .ok (addr, labels)
    else if strStartsWith line ".DB" then
      let parts := splitWhitespace line
      .ok ((addr + (parts.length - 1)) % 256, labels)
    else if strStartsWith line ".STRING" then
      match findQuote line with
      | Option.none => .error (.SyntaxError n "Expected start of string")
      | some s =>
          let e := (rfindQuote line).getD s
          .ok ((addr + (e - (s + 1))) % 256, labels)
    else if isLabelLine line then
      .ok (addr, mapInsert labels (trimEndColons line) addr)
    else
      match splitWhitespace line with
      | [] => .ok (addr, labels)
      | t :: _ =>
          match Op.try_from t with
          | .ok op => .ok ((addr + Op.instruction_len op) % 256, labels)
          | .error (.SyntaxError _ message) => .error (.SyntaxError n message)
          | .error e => .error e

/-- The loop of `Assembler::map_labels`, aborting at the first error. -/
def mapLabelsGo :
    List String → Nat → Nat × (String → Option Nat) →
      Except AssemblerError (String → Option Nat)
  | [], _, st => .ok st.2
  | l :: rest, n, st =>
      match mapLabelsLine n l st with
      | .ok st2 => mapLabelsGo rest (n + 1) st2
      | .error e => .error e

/-- `Assembler::map_labels`. -/
def map_labels (lines : List String) :
    Except AssemblerError (String → Option Nat) :=
  mapLabelsGo lines 1 (0, emptyMap)

/-- The `.DB` emission loop: resolve each listed value and append it. -/
def dbGo (constants : String → Option Nat) (n : Nat) :
    List String → List Nat → Except AssemblerError (List Nat)
  | [], prog => .ok prog
  | p :: rest, prog =>
      match resolve_number constants p n with
      | .ok b => dbGo constants n rest (prog ++ [b])
      | .error e => .error e

/-- One line of the emission pass of `Assembler::assemble`: append the
encoding of the line to the program.  Note the `Op::NOP` arm of the
source emits nothing (`Op::NOP => {}`), even though `instruction_len`
counts NOP as one byte in the label pass.  (The source also matches the
`STR`, `IN`, `JMPR`, `CALLR`, `ROL`, `ROR` variants of a newer `Op`
enumeration; those variants do not exist in the `Op` of `src/lib.rs`
and are omitted.) -/
def emitLine (constants labels : String → Option Nat) (n : Nat) (raw : String)
    (program : List Nat) : Except AssemblerError (List Nat) :=
  let line := stripComment raw
  if line.toList.isEmpty then .ok program
  else if isLabelLine line ∨ isConstantLine line then .ok program
  else if strStartsWith line ".DB" then
    dbGo constants n ((splitWhitespace line).drop 1) program
  else if strStartsWith line ".STRING" then
    match findQuote line with
    | Option.none => .error (.SyntaxError n "Expected start of string")
    | some s =>
        let e := (rfindQuote line).getD s
        let content := ((line.toList.drop (s + 1)).take (e - (s + 1)))
        .ok (program ++ content.map Char.toNat)
  else
    match splitWhitespace line with
    | [] => .ok program
    | t :: rest =>
        match Op.try_from t with
        | .error (.SyntaxError _ message) => .error (.SyntaxError n message)
        | .error e => .error e
        | .ok op =>
            let parts := t :: rest
            let opcode := Op.toByte op
            match op with
            | .HLT | .RET => .ok (program ++ [opcode])
            | .NOP => .ok program
            | .LDI | .ADDI | .SUBI | .MULI | .DIVI | .MODI =>
                if parts.length < 3 then
                  .error (.SyntaxError n (Op.toStr op ++ " requires 2 arguments"))
                else
                  match register (parts.getD 1 "") n with
                  | .error e => .error e
                  | .ok r =>
                      match resolve_number constants (parts.getD 2 "") n with
                      | .error e => .error e
                      | .ok v => .ok (program ++ [opcode, r, v])
            | .LDA | .STORE =>
                if parts.length < 3 then
                  .error (.SyntaxError n (Op.toStr op ++ " requires 2 arguments"))
                else
                  match register (parts.getD 1 "") n with
                  | .error e => .error e
                  | .ok r =>
                      match resolve_number constants (parts.getD 2 "") n with
                      | .error e => .error e
                      | .ok v => .ok (program ++ [opcode, r, v])
            | .LDR | .MOV | .ADD | .SUB | .AND | .OR | .XOR | .CMP
            | .MUL | .DIV | .MOD =>
                if parts.length < 3 then
                  .error (.SyntaxError n (Op.toStr op ++ " requires 2 arguments"))
                else
                  match register (parts.getD 1 "") n with
                  | .error e => .error e
                  | .ok r1 =>
                      match register (parts.getD 2 "") n with
                      | .error e => .error e
                      | .ok r2 => .ok (program ++ [opcode, (r1 <<< 4) ||| r2])
            | .PUSH | .POP | .INC | .DEC | .NOT | .SHL | .SHR | .PRINT =>
                if parts.length < 2 then
                  .error (.SyntaxError n (Op.toStr op ++ " requires 1 argument"))
                else
                  match register (parts.getD 1 "") n with
                  | .error e => .error e
                  | .ok r => .ok (program ++ [opcode, r])
            | .JMP | .JZ | .JNZ | .CALL =>
                if parts.length < 2 then
                  .error (.SyntaxError n (Op.toStr op ++ " requires 1 argument"))
                else
                  match labels (parts.getD 1 "") with
                  | some a => .ok (program ++ [opcode, a])
                  | Option.none =>
                      match resolve_number constants (parts.getD 1 "") n with
                      | .error e => .error e
                      | .ok a => .ok (program ++ [opcode, a])

/-- The emission loop of `Assembler::assemble`, aborting at the first
error. -/
def emitGo (constants labels : String → Option Nat) :
    List String → Nat → List Nat → Except AssemblerError (List Nat)
  | [], _, prog => .ok prog
  | l :: rest, n, prog =>
      match emitLine constants labels n l prog with
      | .ok p => emitGo constants labels rest (n + 1) p
      | .error e => .error e

/-- `Assembler::assemble` over a pre-split line list: the constants
pass, then the label pass, then emission. -/
def assembleLines (lines : List String) : Except AssemblerError (List Nat) :=
  match map_constants lines with
  | .error e => .error e
  | .ok constants =>
      match map_labels lines with
      | .error e => .error e
      | .ok labels => emitGo constants labels lines 1 []

/-- `Assembler::assemble` on source text (`str::lines`). -/
def assemble (asm : String) : Except AssemblerError (List Nat) :=
  assembleLines (strLines asm)

/-! ## Concrete states used by witnesses and counterexamples -/

/-- A machine state with R0 = 5 and R1 = 3 (destination greater than
source for `CMP R0 R1`). -/
def cpuR0FiveR1Three : CPU :=
  { CPU.new with registers := [5, 3, 0, 0, 0, 0, 0, 0, 0, 0, 0, 0, 0, 0, 0, 0] }

/-- A machine state with R0 = 255 and all flags clear. -/
def cpuR0Max : CPU :=
  { CPU.new with registers := [255, 0, 0, 0, 0, 0, 0, 0, 0, 0, 0, 0, 0, 0, 0, 0] }

/-- A machine state with the stack pointer strictly inside its bounds. -/
def cpuMidStack : CPU := { CPU.new with sp := 0xF0 }

/-- Whether one source line passes the constants pass without an error
(the pass's skip/error behaviour depends only on the line text). -/
def constLineOk (raw : String) : Bool :=
  (mapConstantsLine 1 raw emptyMap).isOk

/-- Whether one source line passes the label pass without an error (the
pass's skip/error behaviour depends only on the line text). -/
def labelLineOk (raw : String) : Bool :=
  (mapLabelsLine 1 raw (0, emptyMap)).isOk

/-- A source line that reaches the mnemonic parse of the label pass and
fails there: nonempty after comment stripping, not a `.CONST`, `.DB` or
`.STRING` directive, not a label, and its first token is not a
recognized mnemonic. -/
def badMnemonicLine (raw : String) : Bool :=
  let line := stripComment raw
  !line.toList.isEmpty && !isConstantLine line
    && !strStartsWith line ".DB" && !strStartsWith line ".STRING"
    && !isLabelLine line
    && match splitWhitespace line with
       | [] => false
       | t :: _ => !(Op.fromStr t).isSome

end NanoCoreModel

namespace NanoCoreModel

/-- C1: The ISA decode function from opcode bytes to Operations is total:
every one of the 256 byte values maps to some Operation, with every
unassigned byte (anything at or above 0x22) mapping to NOP rather than
failing; and encoding is a right inverse of decoding: for every Operation
v, decoding the byte obtained by encoding v yields v again, and parsing
the mnemonic string obtained by printing v yields v again. -/
theorem isa_decode_total_encode_roundtrip :
    (∀ b < 256, 0x22 ≤ b → Op.fromByte b = Op.NOP)
      ∧ (∀ v : Op, Op.fromByte (Op.toByte v) = v)
      ∧ (∀ v : Op, Op.fromStr (Op.toStr v) = some v) := by
  refine ⟨by decide, fun v => ?_, fun v => ?_⟩
  · cases v <;> rfl
  · cases v <;> rfl

/-- Witness for C1 at concrete inputs: byte 0x50 is unassigned and decodes
to NOP, and the CMP opcode byte and mnemonic both round-trip. -/
theorem isa_decode_total_encode_roundtrip_witness :
    Op.fromByte 0x50 = Op.NOP
      ∧ Op.fromByte (Op.toByte Op.CMP) = Op.CMP
      ∧ Op.fromStr (Op.toStr Op.CMP) = some Op.CMP :=
  ⟨isa_decode_total_encode_roundtrip.1 0x50 (by decide) (by decide),
   isa_decode_total_encode_roundtrip.2.1 Op.CMP,
   isa_decode_total_encode_roundtrip.2.2 Op.CMP⟩

end NanoCoreModel

namespace NanoCoreModel

/-! ## Flag bit lemmas -/

theorem getFlag_two_pow (f i : Nat) : getFlag f (2 ^ i) = f.testBit i := by
  unfold getFlag
  rw [Nat.and_two_pow]
  have hp : (2 : Nat) ^ i ≠ 0 := pow_ne_zero i (by norm_num)
  cases h : f.testBit i <;> simp [hp]

theorem updateZn_testBit_zero (f v : Nat) :
    (updateZnFlags f v).testBit 0 = decide (v = 0) := by
  have h1 : ((1 : Nat)).testBit 0 = true := by decide
  have h2 : ((4 : Nat)).testBit 0 = false := by decide
  have h3 : ((254 : Nat)).testBit 0 = false := by decide
  have h4 : ((251 : Nat)).testBit 0 = true := by decide
  unfold updateZnFlags setFlag clearFlag CPU.FLAG_Z CPU.FLAG_N
  split_ifs with hz hn hn <;>
    simp [Nat.testBit_or, Nat.testBit_and, h1, h2, h3, h4, hz]

theorem updateZn_testBit_two (f v : Nat) :
    (updateZnFlags f v).testBit 2 = decide (v &&& 0x80 ≠ 0) := by
  have h1 : ((1 : Nat)).testBit 2 = false := by decide
  have h2 : ((4 : Nat)).testBit 2 = true := by decide
  have h3 : ((254 : Nat)).testBit 2 = true := by decide
  have h4 : ((251 : Nat)).testBit 2 = false := by decide
  unfold updateZnFlags setFlag clearFlag CPU.FLAG_Z CPU.FLAG_N
  split_ifs with hz hn hn <;>
    simp [Nat.testBit_or, Nat.testBit_and, h1, h2, h3, h4, hn]

theorem updateZn_testBit_one (f v : Nat) :
    (updateZnFlags f v).testBit 1 = f.testBit 1 := by
  have h1 : ((1 : Nat)).testBit 1 = false := by decide
  have h2 : ((4 : Nat)).testBit 1 = false := by decide
  have h3 : ((254 : Nat)).testBit 1 = true := by decide
  have h4 : ((251 : Nat)).testBit 1 = true := by decide
  unfold updateZnFlags setFlag clearFlag CPU.FLAG_Z CPU.FLAG_N
  split_ifs <;> simp [Nat.testBit_or, Nat.testBit_and, h1, h2, h3, h4]

theorem updateZn_testBit_three (f v : Nat) :
    (updateZnFlags f v).testBit 3 = f.testBit 3 := by
  have h1 : ((1 : Nat)).testBit 3 = false := by decide
  have h2 : ((4 : Nat)).testBit 3 = false := by decide
  have h3 : ((254 : Nat)).testBit 3 = true := by decide
  have h4 : ((251 : Nat)).testBit 3 = true := by decide
  unfold updateZnFlags setFlag clearFlag CPU.FLAG_Z CPU.FLAG_N
  split_ifs <;> simp [Nat.testBit_or, Nat.testBit_and, h1, h2, h3, h4]

theorem getFlag_updateZn_Z (f v : Nat) :
    getFlag (updateZnFlags f v) CPU.FLAG_Z = decide (v = 0) := by
  have h := getFlag_two_pow (updateZnFlags f v) 0
  rw [show (2 ^ 0 : Nat) = CPU.FLAG_Z from rfl] at h
  rw [h, updateZn_testBit_zero]

theorem getFlag_updateZn_N (f v : Nat) :
    getFlag (updateZnFlags f v) CPU.FLAG_N = v.testBit 7 := by
  have h := getFlag_two_pow (updateZnFlags f v) 2
  rw [show (2 ^ 2 : Nat) = CPU.FLAG_N from rfl] at h
  rw [h, updateZn_testBit_two]
  rw [show (0x80 : Nat) = 2 ^ 7 from rfl, Nat.and_two_pow]
  have hp : (2 : Nat) ^ 7 ≠ 0 := by norm_num
  cases hv : v.testBit 7 <;> simp [hv, hp]

theorem getFlag_updateZn_C (f v : Nat) :
    getFlag (updateZnFlags f v) CPU.FLAG_C = getFlag f CPU.FLAG_C := by
  have h := getFlag_two_pow (updateZnFlags f v) 1
  have h2 := getFlag_two_pow f 1
  rw [show (2 ^ 1 : Nat) = CPU.FLAG_C from rfl] at h h2
  rw [h, h2, updateZn_testBit_one]

theorem getFlag_updateZn_Y (f v : Nat) :
    getFlag (updateZnFlags f v) CPU.FLAG_Y = getFlag f CPU.FLAG_Y := by
  have h := getFlag_two_pow (updateZnFlags f v) 3
  have h2 := getFlag_two_pow f 3
  rw [show (2 ^ 3 : Nat) = CPU.FLAG_Y from rfl] at h h2
  rw [h, h2, updateZn_testBit_three]

end NanoCoreModel


namespace NanoCoreModel

/-! ## Unfolding lemmas for `execute`, one per executed arm (the big
match makes direct `simp [execute]` impractical) -/

theorem execute_DIV_eq (cpu : CPU) (rd rs : Nat) :
    execute cpu Op.DIV (Operands.regReg rd rs) = execArithRR cpu .DIV rd rs := rfl

theorem execute_MOD_eq (cpu : CPU) (rd rs : Nat) :
    execute cpu Op.MOD (Operands.regReg rd rs) = execArithRR cpu .MOD rd rs := rfl

theorem execute_DIVI_eq (cpu : CPU) (reg v : Nat) :
    execute cpu Op.DIVI (Operands.regImm reg v) = execArithRI cpu .DIVI reg v := rfl

theorem execute_MODI_eq (cpu : CPU) (reg v : Nat) :
    execute cpu Op.MODI (Operands.regImm reg v) = execArithRI cpu .MODI reg v := rfl

theorem execute_PUSH_eq (cpu : CPU) (reg : Nat) :
    execute cpu Op.PUSH (Operands.reg reg) =
      (if cpu.sp = CPU.STACK_MIN then .error (.StackOverflow cpu.sp)
       else .ok ⟨{ cpu with
                    memory := cpu.memory.set cpu.sp (regGet cpu reg),
                    sp := (cpu.sp + 255) % 256,
                    flags := updateZnFlags cpu.flags (regGet cpu reg) }, false⟩) := rfl

theorem execute_POP_eq (cpu : CPU) (reg : Nat) :
    execute cpu Op.POP (Operands.reg reg) =
      (if cpu.sp = CPU.STACK_MAX then .error (.StackUnderflow cpu.sp)
       else .ok ⟨{ cpu with
                    registers := cpu.registers.set reg (cpu.memory.getD ((cpu.sp + 1) % 256) 0),
                    sp := (cpu.sp + 1) % 256,
                    flags := updateZnFlags cpu.flags
                      (cpu.memory.getD ((cpu.sp + 1) % 256) 0) }, false⟩) := rfl

theorem execute_RET_eq (cpu : CPU) :
    execute cpu Op.RET Operands.none =
      (if cpu.sp = CPU.STACK_MAX then .error (.StackUnderflow cpu.sp)
       else .ok ⟨{ cpu with
                    sp := (cpu.sp + 1) % 256,
                    pc := cpu.memory.getD ((cpu.sp + 1) % 256) 0 }, true⟩) := rfl

theorem execute_INC_eq (cpu : CPU) (reg : Nat) :
    execute cpu Op.INC (Operands.reg reg) =
      .ok ⟨{ cpu with
              registers := cpu.registers.set reg ((regGet cpu reg + 1) % 256),
              flags := updateZnFlags cpu.flags ((regGet cpu reg + 1) % 256) }, false⟩ := rfl

theorem execute_CMP_eq (cpu : CPU) (rd rs : Nat) :
    execute cpu Op.CMP (Operands.regReg rd rs) = .ok (execLogicRR cpu .CMP rd rs) := rfl

theorem execute_LDI_eq (cpu : CPU) (reg v : Nat) :
    execute cpu Op.LDI (Operands.regImm reg v) =
      .ok ⟨{ cpu with
              registers := cpu.registers.set reg v,
              flags := updateZnFlags cpu.flags v }, false⟩ := rfl

theorem execute_LDA_eq (cpu : CPU) (reg a : Nat) :
    execute cpu Op.LDA (Operands.regAddr reg a) =
      .ok ⟨{ cpu with
              registers := cpu.registers.set reg (memGet cpu a),
              flags := updateZnFlags cpu.flags (memGet cpu a) }, false⟩ := rfl

theorem execute_STORE_eq (cpu : CPU) (reg a : Nat) :
    execute cpu Op.STORE (Operands.regAddr reg a) =
      .ok ⟨{ cpu with
              memory := cpu.memory.set a (regGet cpu reg),
              flags := updateZnFlags cpu.flags (regGet cpu reg) }, false⟩ := rfl

theorem execute_LDR_eq (cpu : CPU) (rd rs : Nat) :
    execute cpu Op.LDR (Operands.regReg rd rs) =
      .ok ⟨{ cpu with
              registers := cpu.registers.set rd (memGet cpu (regGet cpu rs)),
              flags := updateZnFlags cpu.flags (memGet cpu (regGet cpu rs)) }, false⟩ := rfl

theorem execute_MOV_eq (cpu : CPU) (rd rs : Nat) :
    execute cpu Op.MOV (Operands.regReg rd rs) =
      .ok ⟨{ cpu with
              registers := cpu.registers.set rd (regGet cpu rs),
              flags := updateZnFlags cpu.flags (regGet cpu rs) }, false⟩ := rfl

end NanoCoreModel

namespace NanoCoreModel

/-- C2: For every machine state, executing DIV, MOD, DIVI or MODI whose
divisor value is zero fails with a DivisionByZero error whose op field
identifies the mnemonic; the failure propagates unchanged through
`cycle`, which returns the error without producing a successor state, so
the destination register still holds its prior value and pc is not
advanced. -/
theorem div_by_zero_error (cpu : CPU) (rd rs reg : Nat)
    (h : regGet cpu rs = 0) :
    execute cpu Op.DIV (Operands.regReg rd rs) = .error (.DivisionByZero "DIV")
  ∧ execute cpu Op.MOD (Operands.regReg rd rs) = .error (.DivisionByZero "MOD")
  ∧ execute cpu Op.DIVI (Operands.regImm reg 0) = .error (.DivisionByZero "DIVI")
  ∧ execute cpu Op.MODI (Operands.regImm reg 0) = .error (.DivisionByZero "MODI")
  ∧ ∀ e, execute cpu (fetchDecode cpu).1 (fetchDecode cpu).2 = .error e →
      cycle cpu = .error e := by
  refine ⟨?_, ?_, ?_, ?_, ?_⟩
  · rw [execute_DIV_eq]; simp [execArithRR, h, Op.toStr]
  · rw [execute_MOD_eq]; simp [execArithRR, h, Op.toStr]
  · rw [execute_DIVI_eq]; simp [execArithRI, Op.toStr]
  · rw [execute_MODI_eq]; simp [execArithRI, Op.toStr]
  · intro e he
    simp only [cycle]
    rw [he]

/-- Witness for C2 on the fresh machine (all registers zero). -/
theorem div_by_zero_error_witness :
    execute CPU.new Op.DIV (Operands.regReg 0 1) = .error (.DivisionByZero "DIV")
  ∧ execute CPU.new Op.MOD (Operands.regReg 0 1) = .error (.DivisionByZero "MOD")
  ∧ execute CPU.new Op.DIVI (Operands.regImm 2 0) = .error (.DivisionByZero "DIVI")
  ∧ execute CPU.new Op.MODI (Operands.regImm 2 0) = .error (.DivisionByZero "MODI") := by
  have h := div_by_zero_error CPU.new 0 1 2 (by decide)
  exact ⟨h.1, h.2.1, h.2.2.1, h.2.2.2.1⟩

/-- C3: PUSH with `sp` strictly above STACK_MIN = 0xEA writes the
register value to memory at the current `sp` and then decrements `sp`;
PUSH with `sp = 0xEA` fails with StackOverflow{sp: 0xEA} before any
write.  POP with `sp` strictly below STACK_MAX = 0xFF first increments
`sp` and then reads memory at the new `sp` into the register; POP and
RET with `sp = 0xFF` fail with StackUnderflow{sp: 0xFF}. -/
theorem stack_bounds (cpu : CPU) (reg : Nat) (hsp : cpu.sp ≤ 0xFF) :
    (cpu.sp = 0xEA →
      execute cpu Op.PUSH (Operands.reg reg) = .error (.StackOverflow 0xEA))
  ∧ (0xEA < cpu.sp →
      execute cpu Op.PUSH (Operands.reg reg) =
        .ok ⟨{ cpu with
                memory := cpu.memory.set cpu.sp (regGet cpu reg),
                sp := cpu.sp - 1,
                flags := updateZnFlags cpu.flags (regGet cpu reg) }, false⟩)
  ∧ (cpu.sp = 0xFF →
      execute cpu Op.POP (Operands.reg reg) = .error (.StackUnderflow 0xFF))
  ∧ (cpu.sp < 0xFF →
      execute cpu Op.POP (Operands.reg reg) =
        .ok ⟨{ cpu with
                registers := cpu.registers.set reg (cpu.memory.getD (cpu.sp + 1) 0),
                sp := cpu.sp + 1,
                flags := updateZnFlags cpu.flags (cpu.memory.getD (cpu.sp + 1) 0) },
             false⟩)
  ∧ (cpu.sp = 0xFF →
      execute cpu Op.RET Operands.none = .error (.StackUnderflow 0xFF)) := by
  refine ⟨?_, ?_, ?_, ?_, ?_⟩
  · intro h; rw [execute_PUSH_eq]; simp [CPU.STACK_MIN, h]
  · intro h
    have hne : ¬ cpu.sp = 0xEA := by omega
    have h1 : (cpu.sp + 255) % 256 = cpu.sp - 1 := by omega
    rw [execute_PUSH_eq]
    simp [CPU.STACK_MIN, hne, h1]
  · intro h; rw [execute_POP_eq]; simp [CPU.STACK_MAX, h]
  · intro h
    have hne : ¬ cpu.sp = 0xFF := by omega
    have h1 : (cpu.sp + 1) % 256 = cpu.sp + 1 := by omega
    rw [execute_POP_eq]
    simp [CPU.STACK_MAX, hne, h1]
  · intro h; rw [execute_RET_eq]; simp [CPU.STACK_MAX, h]

/-- Witness for C3: a successful PUSH with the stack pointer strictly
inside its bounds. -/
theorem stack_bounds_witness :
    cpuMidStack.sp ≤ 0xFF ∧ 0xEA < cpuMidStack.sp ∧
    execute cpuMidStack Op.PUSH (Operands.reg 0) =
      .ok ⟨{ cpuMidStack with
              memory := cpuMidStack.memory.set cpuMidStack.sp (regGet cpuMidStack 0),
              sp := cpuMidStack.sp - 1,
              flags := updateZnFlags cpuMidStack.flags (regGet cpuMidStack 0) },
           false⟩ :=
  ⟨by decide, by decide, (stack_bounds cpuMidStack 0 (by decide)).2.1 (by decide)⟩

end NanoCoreModel

namespace NanoCoreModel

/-- Counterexample to C4 as stated: with the destination register R0
holding 5 and the source register R1 holding 3, the claim says CMP R0 R1
stores 1 (destination greater); the code stores 2, because the
`AND|OR|XOR|CMP` arm reads `v1` from the SOURCE register and `v2` from
the DESTINATION register and stores 1 only when `v1 > v2`. -/
theorem cmp_direction_counterexample :
    (execute cpuR0FiveR1Three Op.CMP (Operands.regReg 0 1)).map
        (fun r => regGet r.cpu 0) = .ok 2
  ∧ ¬ ((execute cpuR0FiveR1Three Op.CMP (Operands.regReg 0 1)).map
        (fun r => regGet r.cpu 0) = .ok 1) := by
  have h1 : (execute cpuR0FiveR1Three Op.CMP (Operands.regReg 0 1)).map
      (fun r => regGet r.cpu 0) = .ok 2 := by rfl
  refine ⟨h1, fun h => ?_⟩
  rw [h1] at h
  simp at h

/-- C4 (amended): Executing CMP with destination register Rd and source
register Rs writes an encoded comparison result into Rd — 0 when the two
register values are equal, 1 when the SOURCE register's value is greater
than the destination register's value, 2 when it is less — and updates
the Z and N flags from that stored result. -/
theorem cmp_stores_encoded_comparison (cpu : CPU) (rd rs : Nat) :
    ∃ res, execute cpu Op.CMP (Operands.regReg rd rs) = .ok res
      ∧ res.cpu.registers = cpu.registers.set rd
          (if regGet cpu rs = regGet cpu rd then 0
           else if regGet cpu rs > regGet cpu rd then 1 else 2)
      ∧ res.cpu.flags = updateZnFlags cpu.flags
          (if regGet cpu rs = regGet cpu rd then 0
           else if regGet cpu rs > regGet cpu rd then 1 else 2)
      ∧ getFlag res.cpu.flags CPU.FLAG_Z =
          decide ((if regGet cpu rs = regGet cpu rd then (0 : Nat)
                   else if regGet cpu rs > regGet cpu rd then 1 else 2) = 0) := by
  refine ⟨execLogicRR cpu .CMP rd rs, execute_CMP_eq cpu rd rs, ?_, ?_, ?_⟩
  · simp [execLogicRR]
  · simp [execLogicRR]
  · simp only [execLogicRR]
    rw [getFlag_updateZn_Z]

end NanoCoreModel

namespace NanoCoreModel

/-- Counterexample to C6 as stated: INC on a register holding 255 with
all flags clear yields 0, sets Z and clears N, but leaves the C flag
CLEAR — the `INC | DEC` arm of `execute` never touches the carry flag,
so the claim's "sets the C flag" fails. -/
theorem inc_carry_counterexample :
    (execute cpuR0Max Op.INC (Operands.reg 0)).map
        (fun r => (regGet r.cpu 0, getFlag r.cpu.flags CPU.FLAG_Z,
                   getFlag r.cpu.flags CPU.FLAG_N, getFlag r.cpu.flags CPU.FLAG_C))
      = .ok (0, true, false, false)
  ∧ ¬ ((execute cpuR0Max Op.INC (Operands.reg 0)).map
        (fun r => (regGet r.cpu 0, getFlag r.cpu.flags CPU.FLAG_Z,
                   getFlag r.cpu.flags CPU.FLAG_N, getFlag r.cpu.flags CPU.FLAG_C))
      = .ok (0, true, false, true)) := by
  have h1 : (execute cpuR0Max Op.INC (Operands.reg 0)).map
      (fun r => (regGet r.cpu 0, getFlag r.cpu.flags CPU.FLAG_Z,
                 getFlag r.cpu.flags CPU.FLAG_N, getFlag r.cpu.flags CPU.FLAG_C))
      = .ok (0, true, false, false) := by rfl
  refine ⟨h1, fun h => ?_⟩
  rw [h1] at h
  simp at h

/-- C6 (amended): Executing INC on a register holding 255 leaves 0 in
that register, sets the Z flag, clears the N flag, and leaves the C flag
unchanged (the INC/DEC arm never writes the carry flag). -/
theorem inc_wraparound_flags (cpu : CPU) (reg : Nat)
    (h : regGet cpu reg = 255) :
    ∃ res, execute cpu Op.INC (Operands.reg reg) = .ok res
      ∧ res.cpu.registers = cpu.registers.set reg 0
      ∧ getFlag res.cpu.flags CPU.FLAG_Z = true
      ∧ getFlag res.cpu.flags CPU.FLAG_N = false
      ∧ getFlag res.cpu.flags CPU.FLAG_C = getFlag cpu.flags CPU.FLAG_C := by
  refine ⟨_, execute_INC_eq cpu reg, ?_, ?_, ?_, ?_⟩
  · simp [h]
  · simp only []
    rw [getFlag_updateZn_Z]
    simp [h]
  · simp only []
    rw [getFlag_updateZn_N]
    simp [h]
  · simp only []
    rw [getFlag_updateZn_C]

/-- Witness for C6's amended theorem at R0 = 255 with all flags clear. -/
theorem inc_wraparound_flags_witness :
    regGet cpuR0Max 0 = 255
  ∧ (∃ res, execute cpuR0Max Op.INC (Operands.reg 0) = .ok res
      ∧ res.cpu.registers = cpuR0Max.registers.set 0 0
      ∧ getFlag res.cpu.flags CPU.FLAG_Z = true
      ∧ getFlag res.cpu.flags CPU.FLAG_N = false
      ∧ getFlag res.cpu.flags CPU.FLAG_C = getFlag cpuR0Max.flags CPU.FLAG_C) :=
  ⟨by decide, inc_wraparound_flags cpuR0Max 0 (by decide)⟩

/-- C10: Every data-transfer instruction — LDI, LDA, STORE, LDR, MOV,
PUSH and POP — updates the flags to `update_zn_flags` of the transferred
value, and `update_zn_flags` sets Z iff the value is 0, sets N iff bit 7
of the value is set, and leaves the C and Y flag bits unchanged. -/
theorem data_transfer_flag_frame (cpu : CPU) (reg rd rs v a : Nat)
    (hpush : cpu.sp ≠ 0xEA) (hpop : cpu.sp ≠ 0xFF) :
    ((execute cpu Op.LDI (Operands.regImm reg v)).map (fun r => r.cpu.flags) =
        .ok (updateZnFlags cpu.flags v))
  ∧ ((execute cpu Op.LDA (Operands.regAddr reg a)).map (fun r => r.cpu.flags) =
        .ok (updateZnFlags cpu.flags (memGet cpu a)))
  ∧ ((execute cpu Op.STORE (Operands.regAddr reg a)).map (fun r => r.cpu.flags) =
        .ok (updateZnFlags cpu.flags (regGet cpu reg)))
  ∧ ((execute cpu Op.LDR (Operands.regReg rd rs)).map (fun r => r.cpu.flags) =
        .ok (updateZnFlags cpu.flags (memGet cpu (regGet cpu rs))))
  ∧ ((execute cpu Op.MOV (Operands.regReg rd rs)).map (fun r => r.cpu.flags) =
        .ok (updateZnFlags cpu.flags (regGet cpu rs)))
  ∧ ((execute cpu Op.PUSH (Operands.reg reg)).map (fun r => r.cpu.flags) =
        .ok (updateZnFlags cpu.flags (regGet cpu reg)))
  ∧ ((execute cpu Op.POP (Operands.reg reg)).map (fun r => r.cpu.flags) =
        .ok (updateZnFlags cpu.flags (cpu.memory.getD ((cpu.sp + 1) % 256) 0)))
  ∧ (∀ f w, getFlag (updateZnFlags f w) CPU.FLAG_Z = decide (w = 0)
      ∧ getFlag (updateZnFlags f w) CPU.FLAG_N = w.testBit 7
      ∧ getFlag (updateZnFlags f w) CPU.FLAG_C = getFlag f CPU.FLAG_C
      ∧ getFlag (updateZnFlags f w) CPU.FLAG_Y = getFlag f CPU.FLAG_Y) := by
  refine ⟨?_, ?_, ?_, ?_, ?_, ?_, ?_,
    fun f w => ⟨getFlag_updateZn_Z f w, getFlag_updateZn_N f w,
      getFlag_updateZn_C f w, getFlag_updateZn_Y f w⟩⟩
  · rw [execute_LDI_eq]; rfl
  · rw [execute_LDA_eq]; rfl
  · rw [execute_STORE_eq]; rfl
  · rw [execute_LDR_eq]; rfl
  · rw [execute_MOV_eq]; rfl
  · rw [execute_PUSH_eq]; simp [CPU.STACK_MIN, hpush, Except.map]
  · rw [execute_POP_eq]; simp [CPU.STACK_MAX, hpop, Except.map]

/-- Witness for C10 on a state whose stack pointer is strictly inside
its bounds. -/
theorem data_transfer_flag_frame_witness :
    cpuMidStack.sp ≠ 0xEA ∧ cpuMidStack.sp ≠ 0xFF
  ∧ ((execute cpuMidStack Op.LDI (Operands.regImm 0 7)).map (fun r => r.cpu.flags) =
      .ok (updateZnFlags cpuMidStack.flags 7))
  ∧ ((execute cpuMidStack Op.POP (Operands.reg 3)).map (fun r => r.cpu.flags) =
      .ok (updateZnFlags cpuMidStack.flags
            (cpuMidStack.memory.getD ((cpuMidStack.sp + 1) % 256) 0))) := by
  have h := data_transfer_flag_frame cpuMidStack 0 1 2 7 3 (by decide) (by decide)
  have h2 := data_transfer_flag_frame cpuMidStack 3 1 2 7 3 (by decide) (by decide)
  exact ⟨by decide, by decide, h.1, h2.2.2.2.2.2.2.1⟩

end NanoCoreModel

namespace NanoCoreModel

theorem loadBytes_length (prog : List Nat) (mem : List Nat) (a : Nat) :
    (loadBytes mem a prog).length = mem.length := by
  induction prog generalizing mem a with
  | nil => rfl
  | cons b rest ih => simp [loadBytes, ih]

theorem loadBytes_getD_lt (prog : List Nat) (mem : List Nat) (a j : Nat)
    (hj : j < a) (hb : a + prog.length ≤ 256) :
    (loadBytes mem a prog).getD j 0 = mem.getD j 0 := by
  induction prog generalizing mem a with
  | nil => rfl
  | cons b rest ih =>
      simp only [loadBytes]
      rw [ih (mem.set (a % 256) b) (a + 1) (by omega)
            (by simp only [List.length_cons] at hb; omega)]
      have ha : a % 256 = a := Nat.mod_eq_of_lt (by simp at hb; omega)
      rw [ha]
      simp [List.getD, List.getElem?_set_ne (by omega : a ≠ j)]

theorem loadBytes_getD (prog : List Nat) (mem : List Nat) (a : Nat)
    (hm : mem.length = 256) (hb : a + prog.length ≤ 256) :
    ∀ i < prog.length, (loadBytes mem a prog).getD (a + i) 0 = prog.getD i 0 := by
  induction prog generalizing mem a with
  | nil => intro i hi; simp at hi
  | cons b rest ih =>
      intro i hi
      have ha : a % 256 = a := Nat.mod_eq_of_lt (by simp at hb; omega)
      match i with
      | 0 =>
          simp only [loadBytes, ha, Nat.add_zero]
          rw [loadBytes_getD_lt rest _ (a + 1) a (by omega)
                (by simp only [List.length_cons] at hb; omega)]
          have hlen : a < mem.length := by omega
          simp [List.getD, List.getElem?_set_self', List.getElem?_eq_getElem hlen]
      | Nat.succ k =>
          simp only [loadBytes, ha]
          have hk : k < rest.length := by
            simp only [List.length_cons] at hi; omega
          have := ih (mem.set a b) (a + 1) (by simp [hm])
            (by simp only [List.length_cons] at hb; omega) k hk
          rw [show a + (k + 1) = (a + 1) + k by omega]
          exact this

/-- C5: `load_program` fails with ProgramTooLarge{size, start, max: 256}
whenever start + size > 256, and in that case no byte of memory is
modified (the error is returned before any write, with no successor
state).  When start + size ≤ 256 the load succeeds, copying the program
into memory at start and setting pc to start. -/
theorem load_program_size_check (cpu : CPU) (program : List Nat) (start : Nat) :
    (256 < start + program.length →
      load_program cpu program start =
        .error (.ProgramTooLarge program.length start 256))
  ∧ (start + program.length ≤ 256 →
      ∃ cpu2, load_program cpu program start = .ok cpu2
        ∧ cpu2.pc = start
        ∧ cpu2.memory = loadBytes cpu.memory start program
        ∧ (cpu.memory.length = 256 →
            ∀ i < program.length, cpu2.memory.getD (start + i) 0 = program.getD i 0)) := by
  constructor
  · intro h; simp [load_program, h]
  · intro h
    refine ⟨{ cpu with memory := loadBytes cpu.memory start program, pc := start },
      ?_, rfl, rfl, fun hm i hi => loadBytes_getD program cpu.memory start hm h i hi⟩
    simp [load_program, Nat.not_lt.mpr h]

/-- Witness for C5: loading a 200-byte program at start 0x80 fails with
ProgramTooLarge{size: 200, start: 128, max: 256}, and a 2-byte program
loaded at 0 succeeds with pc set to 0. -/
theorem load_program_size_check_witness :
    load_program CPU.new (List.replicate 200 0) 0x80 =
      .error (.ProgramTooLarge 200 128 256)
  ∧ ∃ cpu2, load_program CPU.new [0x01, 0x00] 0 = .ok cpu2 ∧ cpu2.pc = 0 := by
  constructor
  · have h := (load_program_size_check CPU.new (List.replicate 200 0) 0x80).1
      (by simp)
    simpa using h
  · obtain ⟨cpu2, h1, h2, -, -⟩ :=
      (load_program_size_check CPU.new [0x01, 0x00] 0).2 (by simp)
    exact ⟨cpu2, h1, h2⟩

end NanoCoreModel

namespace NanoCoreModel

/-- C7: A constant's name used as an operand resolves to exactly the
byte the constant table holds for it (the table takes precedence in
`resolve_number`), and in particular assembling
`.CONST VAL 10 / LDI R0 VAL / HLT` produces output byte-identical to
assembling `LDI R0 10 / HLT`. -/
theorem const_fold_equivalence :
    (∀ (constants : String → Option Nat) (name : String) (v n : Nat),
        constants name = some v → resolve_number constants name n = .ok v)
  ∧ assemble ".CONST VAL 10\nLDI R0 VAL\nHLT" = assemble "LDI R0 10\nHLT"
  ∧ assemble "LDI R0 10\nHLT" = .ok [0x02, 0x00, 0x0A, 0x00] := by
  refine ⟨fun constants name v n h => by simp [resolve_number, h], ?_, ?_⟩
  · rfl
  · rfl

/-- Witness for C7: the table `VAL ↦ 10` resolves the token `VAL` to 10. -/
theorem const_fold_equivalence_witness :
    mapInsert emptyMap "VAL" 10 "VAL" = some 10
  ∧ resolve_number (mapInsert emptyMap "VAL" 10) "VAL" 2 = .ok 10 :=
  ⟨rfl, const_fold_equivalence.1 (mapInsert emptyMap "VAL" 10) "VAL" 10 2 rfl⟩

/-- C9: The emission pass appends zero bytes for a `NOP` line
(`Op::NOP => {}`), while the label pass advances the address counter by
NOP's instruction length of 1 for the same line; consequently in the
program `NOP / L: / LDI R0 5 / JMP L` the label L is recorded at address
1 even though the instruction following it is emitted at byte offset 0,
so `JMP L` is assembled with operand 1. -/
theorem nop_counted_but_not_emitted :
    (∀ (constants labels : String → Option Nat) (n : Nat) (prog : List Nat),
        emitLine constants labels n "NOP" prog = .ok prog)
  ∧ (∀ (n : Nat) (st : Nat × (String → Option Nat)),
        mapLabelsLine n "NOP" st =
          .ok ((st.1 + Op.instruction_len Op.NOP) % 256, st.2))
  ∧ Op.instruction_len Op.NOP = 1
  ∧ (map_labels ["NOP", "L:", "LDI R0 5", "JMP L"]).map (fun m => m "L") =
      .ok (some 1)
  ∧ assembleLines ["NOP", "L:", "LDI R0 5", "JMP L"] =
      .ok [0x02, 0x00, 0x05, 0x16, 0x01] := by
  refine ⟨fun c l n p => rfl, fun n st => ?_, rfl, rfl, rfl⟩
  obtain ⟨a, lbl⟩ := st
  rfl

end NanoCoreModel

namespace NanoCoreModel

/-! ## Pass lemmas for C8 -/

theorem isOk_map {α β : Type} (f : α → β) (x : Except AssemblerError α) :
    (Except.map f x).isOk = x.isOk := by
  cases x <;> rfl

theorem from_value_str_isOk (v : String) (n m : Nat) :
    (from_value_str v n).isOk = (from_value_str v m).isOk := by
  unfold from_value_str
  cases parseU8 v <;> rfl

theorem from_hex_str_isOk (v : String) (n m : Nat) :
    (from_hex_str v n).isOk = (from_hex_str v m).isOk := by
  unfold from_hex_str
  generalize (if strStartsWith v "0x" then strDrop v 2 else v).toList = s
  dsimp only
  split_ifs with h
  · rcases s with _ | ⟨c1, _ | ⟨c2, s⟩⟩ <;> rfl
  · rfl

theorem exists_ok_of_isOk {α : Type} (x : Except AssemblerError α)
    (h : x.isOk = true) : ∃ v, x = .ok v := by
  cases x with
  | ok v => exact ⟨v, rfl⟩
  | error e => simp [Except.isOk, Except.toBool] at h

/-- A line that the constants pass accepts is accepted at every line
number and against every table (the skip/error outcome depends only on
the line's text). -/
theorem mapConstantsLine_ok_any (raw : String) (hok : constLineOk raw = true)
    (n : Nat) (c : String → Option Nat) :
    ∃ c2, mapConstantsLine n raw c = .ok c2 := by
  unfold constLineOk at hok
  unfold mapConstantsLine at hok ⊢
  dsimp only at hok ⊢
  split_ifs at hok ⊢ with h1 h2 h3
  · simp [Except.isOk, Except.toBool] at hok
  · rw [isOk_map] at hok
    have h4 :=
      (from_hex_str_isOk ((splitWhitespace (stripComment raw)).getD 2 "") n 1).trans
        hok
    obtain ⟨v, hv⟩ := exists_ok_of_isOk _ h4
    rw [hv]
    exact ⟨_, rfl⟩
  · rw [isOk_map] at hok
    have h4 :=
      (from_value_str_isOk ((splitWhitespace (stripComment raw)).getD 2 "") n 1).trans
        hok
    obtain ⟨v, hv⟩ := exists_ok_of_isOk _ h4
    rw [hv]
    exact ⟨_, rfl⟩
  · exact ⟨c, rfl⟩

/-- A line that the label pass accepts is accepted at every line number
and against every running state (the skip/error outcome depends only on
the line's text). -/
theorem mapLabelsLine_ok_any (raw : String) (hok : labelLineOk raw = true)
    (n : Nat) (st : Nat × (String → Option Nat)) :
    ∃ st2, mapLabelsLine n raw st = .ok st2 := by
  obtain ⟨a, lbl⟩ := st
  unfold labelLineOk at hok
  unfold mapLabelsLine at hok ⊢
  dsimp only at hok ⊢
  split_ifs at hok ⊢ with h1 h2 h3 h4
  · exact ⟨_, rfl⟩
  · exact ⟨_, rfl⟩
  · cases hfq : findQuote (stripComment raw) with
    | none =>
        rw [hfq] at hok
        simp [Except.isOk, Except.toBool] at hok
    | some s => exact ⟨_, rfl⟩
  · exact ⟨_, rfl⟩
  · cases hsw : splitWhitespace (stripComment raw) with
    | nil => exact ⟨_, rfl⟩
    | cons t ts =>
        rw [hsw] at hok
        dsimp only at hok ⊢
        cases htf : Op.try_from t with
        | ok op => exact ⟨_, rfl⟩
        | error e =>
            rw [htf] at hok
            cases e <;> simp [Except.isOk, Except.toBool] at hok

/-- A bad-mnemonic line makes the label pass fail with a syntax error
carrying exactly the current line number. -/
theorem mapLabelsLine_bad (raw : String) (hbad : badMnemonicLine raw = true)
    (n : Nat) (st : Nat × (String → Option Nat)) :
    ∃ msg, mapLabelsLine n raw st = .error (.SyntaxError n msg) := by
  obtain ⟨a, lbl⟩ := st
  unfold badMnemonicLine at hbad
  dsimp only at hbad
  simp only [Bool.and_eq_true, Bool.not_eq_true'] at hbad
  obtain ⟨⟨⟨⟨⟨h1, h2⟩, h3⟩, h4⟩, h5⟩, h6⟩ := hbad
  unfold mapLabelsLine
  dsimp only
  simp only [h1, h2, h3, h4, h5, Bool.false_eq_true, or_self, if_false]
  cases hsw : splitWhitespace (stripComment raw) with
  | nil =>
      rw [hsw] at h6
      simp at h6
  | cons t ts =>
      rw [hsw] at h6
      dsimp only at h6 ⊢
      cases hfs : Op.fromStr t with
      | some op =>
          rw [hfs] at h6
          simp at h6
      | none =>
          have htf : Op.try_from t =
              .error (.SyntaxError 0 ("Invalid operation: " ++ t)) := by
            unfold Op.try_from
            rw [hfs]
          rw [htf]
          exact ⟨"Invalid operation: " ++ t, rfl⟩

theorem mapConstantsGo_ok :
    ∀ (lines : List String), (∀ l ∈ lines, constLineOk l = true) →
      ∀ (n : Nat) (c : String → Option Nat),
        ∃ c2, mapConstantsGo lines n c = .ok c2 := by
  intro lines
  induction lines with
  | nil => intro _ n c; exact ⟨c, rfl⟩
  | cons l rest ih =>
      intro hall n c
      obtain ⟨c2, hc⟩ := mapConstantsLine_ok_any l (hall l (by simp)) n c
      obtain ⟨c3, hc3⟩ := ih (fun x hx => hall x (by simp [hx])) (n + 1) c2
      refine ⟨c3, ?_⟩
      unfold mapConstantsGo
      rw [hc]
      exact hc3

theorem mapLabelsGo_error (bad : String) (rest : List String)
    (hbad : badMnemonicLine bad = true) :
    ∀ (pre : List String), (∀ l ∈ pre, labelLineOk l = true) →
      ∀ (n : Nat) (st : Nat × (String → Option Nat)),
        ∃ msg, mapLabelsGo (pre ++ bad :: rest) n st =
          .error (.SyntaxError (n + pre.length) msg) := by
  intro pre
  induction pre with
  | nil =>
      intro _ n st
      obtain ⟨msg, hm⟩ := mapLabelsLine_bad bad hbad n st
      refine ⟨msg, ?_⟩
      simp only [List.nil_append]
      unfold mapLabelsGo
      rw [hm]
      simp
  | cons l pre ih =>
      intro hpre n st
      obtain ⟨st2, h2⟩ := mapLabelsLine_ok_any l (hpre l (by simp)) n st
      obtain ⟨msg, hm⟩ := ih (fun x hx => hpre x (by simp [hx])) (n + 1) st2
      refine ⟨msg, ?_⟩
      simp only [List.cons_append]
      unfold mapLabelsGo
      rw [h2]
      rw [show (n + 1) + pre.length = n + (l :: pre).length from by
        simp [List.length_cons]; omega] at hm
      exact hm

/-- C8: Every assembly failure carries a 1-based source line (every
`AssemblerError` variant has a `line` field, projected by `lineOf`) and
is one of the five kinds SyntaxError, InvalidRegister, InvalidValue,
InvalidHexAddress, UndefinedLabel (the whole `AssemblerError` type);
for every source line whose first token is not a recognized mnemonic
(and that is not a directive, label, blank or comment line, and is
preceded only by lines the earlier passes accept), assembly fails with
a syntax error naming that line, and assembly aborts on the first error
so no program is produced. -/
theorem assemble_bad_mnemonic (pre : List String) (bad : String)
    (rest : List String)
    (hconst : ∀ l ∈ pre ++ bad :: rest, constLineOk l = true)
    (hpre : ∀ l ∈ pre, labelLineOk l = true)
    (hbad : badMnemonicLine bad = true) :
    (∃ msg, assembleLines (pre ++ bad :: rest) =
        .error (.SyntaxError (pre.length + 1) msg))
  ∧ (∀ e, assembleLines (pre ++ bad :: rest) = .error e →
        e.lineOf = pre.length + 1)
  ∧ ∀ p, ¬ assembleLines (pre ++ bad :: rest) = .ok p := by
  obtain ⟨c, hc⟩ := mapConstantsGo_ok (pre ++ bad :: rest) hconst 1 emptyMap
  obtain ⟨msg, hm⟩ := mapLabelsGo_error bad rest hbad pre hpre 1 (0, emptyMap)
  rw [show 1 + pre.length = pre.length + 1 from Nat.add_comm 1 pre.length] at hm
  have ha : assembleLines (pre ++ bad :: rest) =
      .error (.SyntaxError (pre.length + 1) msg) := by
    unfold assembleLines map_constants map_labels
    rw [hc]
    dsimp only
    rw [hm]
  refine ⟨⟨msg, ha⟩, ?_, ?_⟩
  · intro e he
    rw [ha] at he
    injection he with h
    rw [← h]
    rfl
  · intro p hp
    rw [ha] at hp
    simp at hp

/-- Witness for C8: the program `LDI R0 1 / FOO R2 / HLT` fails with a
syntax error on line 2. -/
theorem assemble_bad_mnemonic_witness :
    (∀ l ∈ ["LDI R0 1"] ++ "FOO R2" :: ["HLT"], constLineOk l = true)
  ∧ (∀ l ∈ ["LDI R0 1"], labelLineOk l = true)
  ∧ badMnemonicLine "FOO R2" = true
  ∧ ∃ msg, assembleLines (["LDI R0 1"] ++ "FOO R2" :: ["HLT"]) =
      .error (.SyntaxError 2 msg) := by
  have h := assemble_bad_mnemonic ["LDI R0 1"] "FOO R2" ["HLT"]
    (by decide) (by decide) (by decide)
  exact ⟨by decide, by decide, by decide, h.1⟩

end NanoCoreModel
